import Mathlib

/-!
# Verification of the alignment-and-error-metrics engine of `3DErrorAnalysis.py`

This file gives a shallow embedding of the core comparison pipeline of
`calculate_antenna_mse` (src/3DErrorAnalysis.py, lines 102-163): column-name
stripping and validation, the inner join of the two tables on the
(Phi[deg], Theta[deg]) key, the derived error columns, the aggregate
statistics (MSE, RMSE, mean bias), the top-5 largest-error extraction
(`nlargest`), and the pivot/sort/reindex construction of the three dense
grids.  Numeric cell values are modelled as rationals (the script works on
float64 columns; the claims under study are exact-arithmetic properties),
and the float NaN sentinel of a missing grid cell is modelled as `none`.
-/

namespace Antenna3DError

/-- A parsed CSV table as pandas presents it to the script: a list of column
names and a list of rows, each row a list of numeric cells positionally
aligned with the column names. -/
structure PyTable where
  cols : List String
  rows : List (List ℚ)
deriving DecidableEq

/-- Python `str.strip()` with no argument: remove leading and trailing
whitespace characters. -/
def pyStrip (s : String) : String :=
  ⟨(((s.data.dropWhile Char.isWhitespace).reverse).dropWhile
      Char.isWhitespace).reverse⟩

/-- Lines 102-103 (value content): `df.columns = [c.strip() for c in
df.columns]` — trim incidental whitespace from every column name.  The
source performs this as an in-place assignment through the `columns` setter
of each parsed DataFrame; that heap effect is modelled separately by
`stripColsInPlace` below. -/
def stripCols (t : PyTable) : PyTable :=
  ⟨t.cols.map pyStrip, t.rows⟩

/-- Line 105: `target_col = 'dB10normalize(GainTotal)'` — the comparison value
column, a constant hardcoded in the script (comment in source: "Change as
needed, hardcoded data column name"). -/
def targetCol : String := "dB10normalize(GainTotal)"

/-- Line 106: `req_cols = ['Phi[deg]', 'Theta[deg]', target_col]`. -/
def reqCols : List String := ["Phi[deg]", "Theta[deg]", targetCol]

/-- Line 109: `all(col in df.columns for col in req_cols)` on a (stripped)
table. -/
def hasReqCols (t : PyTable) : Bool :=
  reqCols.all (fun c => decide (c ∈ t.cols))

/-- Positional lookup of column `c` in a row: the cell under the first column
named `c`.  Total with default 0 (the script's tables are rectangular CSV
frames, so the default is never consulted on validated input). -/
def cellD (cols : List String) (row : List ℚ) (c : String) : ℚ :=
  match cols.findIdx? (fun c2 => c2 == c) with
  | some i => row.getD i 0
  | none => 0

/-- One record of a sample table restricted to the three columns the engine
uses: the two coordinates and the comparison value. -/
structure SRow where
  phi : ℚ
  theta : ℚ
  val : ℚ
deriving DecidableEq

/-- The join key of a record: the (Phi[deg], Theta[deg]) pair. -/
def SRow.key (r : SRow) : ℚ × ℚ := (r.phi, r.theta)

/-- The projection of a (stripped) table onto the columns the engine reads. -/
def sRows (t : PyTable) : List SRow :=
  t.rows.map (fun row =>
    ⟨cellD t.cols row "Phi[deg]", cellD t.cols row "Theta[deg]",
      cellD t.cols row targetCol⟩)

/-- The list of join keys of a table. -/
def keys (l : List SRow) : List (ℚ × ℚ) := l.map SRow.key

/-- A row of the merged frame, carrying both value columns
(`..._orig`, `..._interp`). -/
structure MRow where
  phi : ℚ
  theta : ℚ
  vOrig : ℚ
  vInterp : ℚ
deriving DecidableEq

/-- Lines 114-119: `pd.merge(df_orig, df_interp, on=['Phi[deg]','Theta[deg]'],
suffixes=('_orig','_interp'))` — inner join on exact key equality.  Pandas
keeps the left (original) frame's row order and, per left row, the matching
right rows in their own order. -/
def merge (orig interp : List SRow) : List MRow :=
  orig.flatMap (fun o =>
    (interp.filter (fun i => decide (i.key = o.key))).map
      (fun i => ⟨o.phi, o.theta, o.val, i.val⟩))

/-- A merged row after the derived columns of lines 131-133 are attached. -/
structure DRow where
  phi : ℚ
  theta : ℚ
  vOrig : ℚ
  vInterp : ℚ
  diff : ℚ
  sqError : ℚ
  absError : ℚ
deriving DecidableEq

/-- Lines 131-133: `merged['diff'] = merged[col_interp] - merged[col_orig]`,
`merged['sq_error'] = merged['diff'] ** 2`,
`merged['abs_error'] = merged['diff'].abs()`, one merged row at a time. -/
def addDerived (m : MRow) : DRow :=
  let d := m.vInterp - m.vOrig
  ⟨m.phi, m.theta, m.vOrig, m.vInterp, d, d ^ 2, |d|⟩

/-- The aligned table with its derived columns (value-level content of
`merged` after line 133). -/
def withDerived (l : List MRow) : List DRow := l.map addDerived

/-- Line 135: `mse = merged['sq_error'].mean()` — arithmetic mean of the
squared errors. -/
def mse (l : List DRow) : ℚ := (l.map (fun r => r.sqError)).sum / l.length

/-- Line 137: `mean_bias = merged['diff'].mean()` — arithmetic mean of the
signed differences. -/
def meanBias (l : List DRow) : ℚ := (l.map (fun r => r.diff)).sum / l.length

/-- The selection order of `DataFrame.nlargest(n, 'sq_error')` with the
default `keep='first'`: descending by `sq_error`, ties kept in original row
order.  On index-tagged rows this is the total order "strictly larger
squared error first, equal squared errors by ascending original position". -/
def nlargestRel (p q : Nat × DRow) : Prop :=
  q.2.sqError < p.2.sqError ∨ (p.2.sqError = q.2.sqError ∧ p.1 ≤ q.1)

instance : DecidableRel nlargestRel := fun p q => by
  unfold nlargestRel; infer_instance

instance : IsTrans (Nat × DRow) nlargestRel := by
  constructor
  intro a b c hab hbc
  rcases hab with h1 | ⟨h1, h2⟩ <;> rcases hbc with h3 | ⟨h3, h4⟩
  · exact Or.inl (h3.trans h1)
  · exact Or.inl (by rw [← h3]; exact h1)
  · exact Or.inl (by rw [h1]; exact h3)
  · exact Or.inr ⟨h1.trans h3, h2.trans h4⟩

instance : IsTotal (Nat × DRow) nlargestRel := by
  constructor
  intro a b
  rcases lt_trichotomy a.2.sqError b.2.sqError with h | h | h
  · exact Or.inr (Or.inl h)
  · rcases Nat.le_total a.1 b.1 with h2 | h2
    · exact Or.inl (Or.inr ⟨h, h2⟩)
    · exact Or.inr (Or.inr ⟨h.symm, h2⟩)
  · exact Or.inl (Or.inl h)

/-- Line 151, index-tagged form: the first `n` rows of the aligned table
ordered by `nlargestRel` (pandas `nlargest` computes a stable descending
selection), each carried with its original position. -/
def nlargestIdx (n : Nat) (l : List DRow) : List (Nat × DRow) :=
  (l.enum.insertionSort nlargestRel).take n

/-- Line 151: `merged.nlargest(5, 'sq_error')` generalised over `n` — the
rows themselves, in selection order. -/
def nlargest (n : Nat) (l : List DRow) : List DRow :=
  (nlargestIdx n l).map Prod.snd

/-- The distinct values of a column, sorted ascending — the axis labels a
pandas pivot produces. -/
def sortedVals (l : List ℚ) : List ℚ :=
  l.dedup.insertionSort (fun a b => a ≤ b)

/-- A pivoted frame: row labels, column labels, and the cell contents keyed
by label pair (`none` models the NaN a pivot places where no source row has
that label pair). -/
structure PGrid where
  rcs : List ℚ
  ccs : List ℚ
  cell : ℚ → ℚ → Option ℚ

/-- The cell contents of `merged.pivot(index='Phi[deg]', columns='Theta[deg]',
values=f)`: the value of the (unique) aligned row with that key, or NaN.
Pandas `pivot` raises on duplicate (index, columns) pairs; the model reads
the first matching row, which agrees with pandas exactly when keys are
unique (duplicate keys are declared undefined behaviour by the design). -/
def pivotCell (l : List DRow) (f : DRow → ℚ) (a b : ℚ) : Option ℚ :=
  (l.find? (fun r => decide (r.phi = a ∧ r.theta = b))).map f

/-- Lines 155-157: one `merged.pivot(...)` call.  The resulting axes are the
distinct Phi (rows) and Theta (columns) values of the merged frame, sorted
ascending as pandas pivot emits them. -/
def pivot (l : List DRow) (f : DRow → ℚ) : PGrid :=
  ⟨sortedVals (l.map (fun r => r.phi)), sortedVals (l.map (fun r => r.theta)),
    pivotCell l f⟩

/-- Lines 159-160 (value content): `sort_index(axis=0)` and
`sort_index(axis=1)` — sort both label axes ascending, cells unchanged. -/
def sortIndexBoth (g : PGrid) : PGrid :=
  ⟨g.rcs.insertionSort (fun a b => a ≤ b),
    g.ccs.insertionSort (fun a b => a ≤ b), g.cell⟩

/-- Lines 162-163: `g.reindex_like(target)` — relabel `g` onto the target's
axes, looking cells up by label and filling NaN where a label is absent
from `g`. -/
def reindexLike (g target : PGrid) : PGrid :=
  ⟨target.rcs, target.ccs,
    fun a b => if a ∈ g.rcs ∧ b ∈ g.ccs then g.cell a b else none⟩

/-- The dense row-major numeric array of a pivoted frame (`.values`). -/
def gridValues (g : PGrid) : List (List (Option ℚ)) :=
  g.rcs.map (fun a => g.ccs.map (fun b => g.cell a b))

/-- Lines 155, 159-160: the reconstruction grid, axes sorted in place. -/
def gridInterp (l : List DRow) : PGrid :=
  sortIndexBoth (pivot l (fun r => r.vInterp))

/-- Lines 156, 162: the reference grid, reindexed onto the reconstruction
grid's axes. -/
def gridOrig (l : List DRow) : PGrid :=
  reindexLike (pivot l (fun r => r.vOrig)) (gridInterp l)

/-- Lines 157, 163: the absolute-error grid, reindexed onto the
reconstruction grid's axes. -/
def gridError (l : List DRow) : PGrid :=
  reindexLike (pivot l (fun r => r.absError)) (gridInterp l)

/-- The ways a run fails: a table missing required columns (lines 108-112,
the message names the table and prints the full `req_cols` list), or an
empty join (lines 121-124). -/
inductive EngineError where
  | missingFields (table : String) (reported : List String)
  | emptyAlignment
deriving DecidableEq

/-- Everything a successful run computes and hands to the viewer. -/
structure Output where
  aligned : List DRow
  mse : ℚ
  meanBias : ℚ
  top5 : List DRow
  gInterp : PGrid
  gOrig : PGrid
  gError : PGrid

/-- Lines 102-163 of `calculate_antenna_mse`, after the two tables are
parsed: strip column names, validate (Interpolated first, then Original,
each error reporting the table name and the full required list), inner-join
original against interpolated, reject an empty join, then compute the
derived columns, statistics, top-5 report and the three grids. -/
def calculate_antenna_mse (dfInterp dfOrig : PyTable) :
    Except EngineError Output :=
  let ti := stripCols dfInterp
  let to2 := stripCols dfOrig
  if hasReqCols ti then
    if hasReqCols to2 then
      let merged := merge (sRows to2) (sRows ti)
      if merged.isEmpty then
        .error .emptyAlignment
      else
        let al := withDerived merged
        .ok ⟨al, mse al, meanBias al, nlargest 5 al,
          gridInterp al, gridOrig al, gridError al⟩
    else
      .error (.missingFields "Original" reqCols)
  else
    .error (.missingFields "Interpolated" reqCols)

/-- Whether a run succeeded (reached line 165 with all artifacts built). -/
def isOk (r : Except EngineError Output) : Bool :=
  match r with
  | .ok _ => true
  | .error _ => false

/-- A heap object of the script: a parsed table, the merged frame before or
after the derived columns are attached, or a pivoted grid. -/
inductive PyObj where
  | table (t : PyTable)
  | aligned (l : List MRow)
  | alignedD (l : List DRow)
  | grid (g : PGrid)

/-- The Python object heap: addresses to objects.  Distinct live objects sit
at distinct addresses; a stage mutates an object in place exactly when it
rewrites the heap at the object's existing address. -/
def Heap : Type := Nat → Option PyObj

/-- Lines 131-133 as the heap effect they have: `merged['diff'] = ...` (and
the two assignments after it) write the derived columns through the existing
`merged` object — the heap cell at the frame's address is rewritten, no new
object is allocated. -/
def assignDerivedInPlace (h : Heap) (addr : Nat) : Heap :=
  fun i =>
    if i = addr then
      match h addr with
      | some (.aligned l) => some (.alignedD (withDerived l))
      | x => x
    else h i

/-- Lines 159-160 as their heap effect: `grid_interp.sort_index(axis=0,
inplace=True)` and the axis-1 call rewrite the grid object at its existing
address. -/
def sortIndexInPlace (h : Heap) (addr : Nat) : Heap :=
  fun i =>
    if i = addr then
      match h addr with
      | some (.grid g) => some (.grid (sortIndexBoth g))
      | x => x
    else h i

/-- Lines 102-103 as their heap effect: `df.columns = [c.strip() for c in
df.columns]` assigns through the `columns` setter of the existing parsed
DataFrame — the table object is rewritten in place at its address, no new
table is allocated.  The run applies this to both parsed input tables. -/
def stripColsInPlace (h : Heap) (addr : Nat) : Heap :=
  fun i =>
    if i = addr then
      match h addr with
      | some (.table t) => some (.table (stripCols t))
      | x => x
    else h i

/-- The spec's one-row scenario, reference side: rows `[(0,0,10.0)]` with the
engine's required column names. -/
def tRefScenario : PyTable :=
  ⟨["Phi[deg]", "Theta[deg]", "dB10normalize(GainTotal)"], [[0, 0, 10]]⟩

/-- The spec's one-row scenario, reconstruction side: rows `[(0,0,12.0)]`. -/
def tIntScenario : PyTable :=
  ⟨["Phi[deg]", "Theta[deg]", "dB10normalize(GainTotal)"], [[0, 0, 12]]⟩

/-- A reconstruction table sharing no (Phi, Theta) key with
`tRefScenario`. -/
def tIntDisjoint : PyTable :=
  ⟨["Phi[deg]", "Theta[deg]", "dB10normalize(GainTotal)"], [[5, 5, 12]]⟩

/-- A table that has the two coordinate columns but lacks the value column:
exactly one required field is missing. -/
def tMissingVal : PyTable :=
  ⟨["Phi[deg]", "Theta[deg]"], [[0, 0]]⟩

/-- A pair of tables whose caller-chosen value column is named "gain"
instead of the hardcoded name. -/
def tGainInterp : PyTable :=
  ⟨["Phi[deg]", "Theta[deg]", "gain"], [[0, 0, 12]]⟩

/-- Reference-side table with value column "gain". -/
def tGainRef : PyTable :=
  ⟨["Phi[deg]", "Theta[deg]", "gain"], [[0, 0, 10]]⟩

/-- The aligned row the one-row scenario produces, with its derived
columns. -/
def rowDemo : DRow := ⟨0, 0, 10, 12, 2, 4, 2⟩

/-- A one-row aligned table for grid witnesses. -/
def lDemo : List DRow := [rowDemo]

/-- A one-object heap: the merged frame, before the derived columns, at
address 0. -/
def heap0 : Heap := fun i =>
  if i = 0 then some (.aligned [⟨0, 0, 10, 12⟩]) else none

/-- A small pivoted grid object. -/
def gridDemo : PGrid := ⟨[0], [0], fun _ _ => none⟩

/-- A one-object heap: a pivoted grid at address 3. -/
def heapG : Heap := fun i =>
  if i = 3 then some (.grid gridDemo) else none

/-- A parsed input table whose first column name carries incidental
whitespace, as read from a CSV before line 102 runs. -/
def tPadded : PyTable :=
  ⟨[" Phi[deg] ", "Theta[deg]", "dB10normalize(GainTotal)"], [[0, 0, 12]]⟩

/-- A one-object heap: the parsed table `tPadded` at address 0, before the
column-strip assignment of lines 102-103. -/
def heapT : Heap := fun i =>
  if i = 0 then some (.table tPadded) else none

/-! ## Helper lemmas -/

/-- Every row of the aligned table after lines 131-133 is the image of a
merged row under `addDerived`. -/
theorem mem_withDerived {l : List MRow} {m : DRow} (hm : m ∈ withDerived l) :
    ∃ a ∈ l, addDerived a = m := by
  simpa [withDerived] using hm

/-- The MSE of any aligned table coming out of the derived-column stage is
nonnegative: it is a mean of squares. -/
theorem mse_withDerived_nonneg (l : List MRow) : 0 ≤ mse (withDerived l) := by
  unfold mse
  apply div_nonneg
  · apply List.sum_nonneg
    intro x hx
    simp only [withDerived, List.map_map, List.mem_map, Function.comp] at hx
    obtain ⟨a, -, rfl⟩ := hx
    exact sq_nonneg _
  · exact_mod_cast Nat.zero_le _

/-! ## Claim theorems -/

/-- C4: for every joined row of the aligned table,
`difference = value_recon - value_ref`, `squared_error = difference ^ 2` and
`abs_error = |difference|`; consequently, on the one-row scenario with
reference row (0, 0, 10.0) and reconstruction row (0, 0, 12.0), the aligned
difference is 2.0, the MSE 4.0, the RMSE 2.0 and the bias 2.0 (positive,
which line 144 labels "Optimistic"). -/
theorem derived_columns_and_one_row_scenario :
    (∀ (l : List MRow) (m : DRow), m ∈ withDerived l →
        m.diff = m.vInterp - m.vOrig ∧ m.sqError = m.diff ^ 2 ∧
          m.absError = |m.diff|) ∧
    (withDerived (merge (sRows tRefScenario) (sRows tIntScenario))).map
        (fun r => r.diff) = [2] ∧
    mse (withDerived (merge (sRows tRefScenario) (sRows tIntScenario))) = 4 ∧
    Real.sqrt (mse (withDerived (merge (sRows tRefScenario) (sRows tIntScenario)))) = 2 ∧
    meanBias (withDerived (merge (sRows tRefScenario) (sRows tIntScenario))) = 2 ∧
    (0 : ℚ) < meanBias (withDerived (merge (sRows tRefScenario) (sRows tIntScenario))) := by
  have hmerge : merge (sRows tRefScenario) (sRows tIntScenario) =
      [⟨0, 0, 10, 12⟩] := by decide
  have hmse : mse (withDerived (merge (sRows tRefScenario) (sRows tIntScenario))) = 4 := by
    rw [hmerge]; norm_num [mse, withDerived, addDerived]
  refine ⟨fun l m hm => ?_, ?_, hmse, ?_, ?_, ?_⟩
  · obtain ⟨a, -, rfl⟩ := mem_withDerived hm
    refine ⟨rfl, ?_, ?_⟩ <;> simp [addDerived]
  · rw [hmerge]; norm_num [withDerived, addDerived]
  · rw [hmse, show ((4 : ℚ) : ℝ) = 2 ^ 2 by norm_num, Real.sqrt_sq (by norm_num)]
  · rw [hmerge]; norm_num [meanBias, withDerived, addDerived]
  · rw [hmerge]; norm_num [meanBias, withDerived, addDerived]

/-- Witness for C4: the scenario's aligned row instantiates the
universally-quantified part. -/
theorem derived_columns_and_one_row_scenario_witness :
    rowDemo ∈ withDerived (merge (sRows tRefScenario) (sRows tIntScenario)) ∧
    (rowDemo.diff = rowDemo.vInterp - rowDemo.vOrig ∧
      rowDemo.sqError = rowDemo.diff ^ 2 ∧ rowDemo.absError = |rowDemo.diff|) := by
  have hmerge : merge (sRows tRefScenario) (sRows tIntScenario) =
      [⟨0, 0, 10, 12⟩] := by decide
  have hm : rowDemo ∈ withDerived (merge (sRows tRefScenario) (sRows tIntScenario)) := by
    rw [hmerge]
    norm_num [withDerived, addDerived, rowDemo]
  exact ⟨hm, derived_columns_and_one_row_scenario.1 _ rowDemo hm⟩

/-- C5: on every non-empty aligned table, the summary stage computes the MSE
as the arithmetic mean of `sq_error`, the bias as the arithmetic mean of
`diff`, the MSE is nonnegative, and the RMSE (`mse ** 0.5`, line 136,
modelled as the real square root) squares back to the MSE exactly. -/
theorem summarize_mse_bias_rmse (l : List MRow) (hne : withDerived l ≠ []) :
    mse (withDerived l) =
      ((withDerived l).map (fun r => r.sqError)).sum /
        ((withDerived l).length : ℚ) ∧
    meanBias (withDerived l) =
      ((withDerived l).map (fun r => r.diff)).sum /
        ((withDerived l).length : ℚ) ∧
    0 ≤ mse (withDerived l) ∧
    Real.sqrt (mse (withDerived l)) ^ 2 = (mse (withDerived l) : ℝ) := by
  refine ⟨rfl, rfl, mse_withDerived_nonneg l, ?_⟩
  rw [Real.sq_sqrt]
  exact_mod_cast mse_withDerived_nonneg l

/-- Witness for C5 at the one-row aligned table. -/
theorem summarize_mse_bias_rmse_witness :
    withDerived [(⟨0, 0, 10, 12⟩ : MRow)] ≠ [] ∧
    Real.sqrt (mse (withDerived [(⟨0, 0, 10, 12⟩ : MRow)])) ^ 2 =
      (mse (withDerived [(⟨0, 0, 10, 12⟩ : MRow)]) : ℝ) := by
  have hne : withDerived [(⟨0, 0, 10, 12⟩ : MRow)] ≠ [] := by decide
  exact ⟨hne, (summarize_mse_bias_rmse _ hne).2.2.2⟩

/-- When the right table's keys are duplicate-free, each left row matches at
most one right row: the match list has length 1 or 0 according to key
membership. -/
theorem filter_key_length (interp : List SRow) (hn : (keys interp).Nodup)
    (k : ℚ × ℚ) :
    (interp.filter (fun i => decide (i.key = k))).length =
      if k ∈ keys interp then 1 else 0 := by
  induction interp with
  | nil => simp [keys]
  | cons i rest ih =>
    simp only [keys, List.map_cons, List.nodup_cons] at hn
    rw [List.filter_cons]
    by_cases hik : i.key = k
    · have hkr : k ∉ keys rest := hik ▸ hn.1
      have hfr : rest.filter (fun i2 => decide (i2.key = k)) = [] := by
        rw [List.filter_eq_nil_iff]
        intro x hx
        simp only [decide_eq_true_eq]
        intro hxk
        exact hkr (hxk ▸ List.mem_map_of_mem SRow.key hx)
      have hkm : k ∈ keys (i :: rest) := by
        simp only [keys, List.map_cons]
        exact hik ▸ List.mem_cons_self _ _
      simp [hik, hfr, hkm]
    · have hkm : (k ∈ keys (i :: rest)) ↔ (k ∈ keys rest) := by
        simp only [keys, List.map_cons, List.mem_cons]
        constructor
        · rintro (h | h)
          · exact absurd h.symm hik
          · exact h
        · exact Or.inr
      rw [if_neg (by simpa using hik), ih hn.2]
      by_cases hk2 : k ∈ keys rest
      · rw [if_pos hk2, if_pos (hkm.mpr hk2)]
      · rw [if_neg hk2, if_neg (fun h => hk2 (hkm.mp h))]

/-- The inner join's row count equals the number of left rows whose key
occurs in the right table (right keys duplicate-free). -/
theorem merge_length_countP (orig interp : List SRow)
    (hn : (keys interp).Nodup) :
    (merge orig interp).length =
      orig.countP (fun o => decide (o.key ∈ keys interp)) := by
  induction orig with
  | nil => rfl
  | cons o rest ih =>
    have hcons : merge (o :: rest) interp =
        ((interp.filter (fun i => decide (i.key = o.key))).map
          (fun i => (⟨o.phi, o.theta, o.val, i.val⟩ : MRow))) ++
          merge rest interp := rfl
    rw [hcons, List.length_append, List.length_map,
      filter_key_length interp hn, ih, List.countP_cons]
    by_cases h : o.key ∈ keys interp <;> simp [h, Nat.add_comm]

/-- When no key of the left table occurs in the right table, the join is
empty. -/
theorem merge_eq_nil_of_disjoint (orig interp : List SRow)
    (h : ∀ k ∈ keys orig, k ∉ keys interp) :
    merge orig interp = [] := by
  induction orig with
  | nil => rfl
  | cons o rest ih =>
    have hcons : merge (o :: rest) interp =
        ((interp.filter (fun i => decide (i.key = o.key))).map
          (fun i => (⟨o.phi, o.theta, o.val, i.val⟩ : MRow))) ++
          merge rest interp := rfl
    rw [hcons]
    have h1 : interp.filter (fun i => decide (i.key = o.key)) = [] := by
      rw [List.filter_eq_nil_iff]
      intro x hx
      simp only [decide_eq_true_eq]
      intro hxk
      exact h o.key (by simp [keys]) (hxk ▸ List.mem_map_of_mem SRow.key hx)
    rw [h1]
    simp only [List.map_nil, List.nil_append]
    exact ih (fun k hk => h k (List.mem_cons_of_mem _ (by simpa [keys] using hk)))

/-- C2: with duplicate-free keys on both sides and at least one common key,
the inner join (lines 114-119) produces exactly as many rows as the
intersection of the two tables' key sets — never more. -/
theorem align_rowcount_eq_key_intersection (orig interp : List SRow)
    (h1 : (keys orig).Nodup) (h2 : (keys interp).Nodup)
    (h3 : ∃ k, k ∈ keys orig ∧ k ∈ keys interp) :
    (merge orig interp).length =
      ((keys orig).toFinset ∩ (keys interp).toFinset).card := by
  rw [merge_length_countP orig interp h2]
  have hmap : orig.countP (fun o => decide (o.key ∈ keys interp)) =
      (keys orig).countP (fun k => decide (k ∈ keys interp)) := by
    simp only [keys, List.countP_map]
    rfl
  rw [hmap, List.countP_eq_length_filter]
  have hnd : ((keys orig).filter (fun k => decide (k ∈ keys interp))).Nodup :=
    h1.filter _
  rw [← List.toFinset_card_of_nodup hnd]
  congr 1
  ext k
  simp [List.mem_toFinset, Finset.mem_inter, List.mem_filter]

/-- Witness for C2 at two one-row tables sharing the key (0, 0). -/
theorem align_rowcount_eq_key_intersection_witness :
    ((keys [(⟨0, 0, 10⟩ : SRow)]).Nodup ∧ (keys [(⟨0, 0, 12⟩ : SRow)]).Nodup ∧
      (∃ k, k ∈ keys [(⟨0, 0, 10⟩ : SRow)] ∧ k ∈ keys [(⟨0, 0, 12⟩ : SRow)])) ∧
    (merge [(⟨0, 0, 10⟩ : SRow)] [(⟨0, 0, 12⟩ : SRow)]).length =
      ((keys [(⟨0, 0, 10⟩ : SRow)]).toFinset ∩
        (keys [(⟨0, 0, 12⟩ : SRow)]).toFinset).card := by
  refine ⟨⟨by decide, by decide, ⟨(0, 0), by decide, by decide⟩⟩, ?_⟩
  exact align_rowcount_eq_key_intersection _ _ (by decide) (by decide)
    ⟨(0, 0), by decide, by decide⟩

/-- C3: the run reports the empty-alignment error exactly when both tables
pass validation and the inner join has zero rows; tables sharing no key
force an empty join; and an erroring run produces no output (no summary,
top-errors report or grids). -/
theorem align_empty_alignment_error_iff (dfInterp dfOrig : PyTable) :
    (calculate_antenna_mse dfInterp dfOrig = .error .emptyAlignment ↔
      hasReqCols (stripCols dfInterp) = true ∧
        hasReqCols (stripCols dfOrig) = true ∧
        merge (sRows (stripCols dfOrig)) (sRows (stripCols dfInterp)) = []) ∧
    ((∀ k ∈ keys (sRows (stripCols dfOrig)),
        k ∉ keys (sRows (stripCols dfInterp))) →
      merge (sRows (stripCols dfOrig)) (sRows (stripCols dfInterp)) = []) ∧
    (∀ e, calculate_antenna_mse dfInterp dfOrig = .error e →
      ∀ o, calculate_antenna_mse dfInterp dfOrig ≠ .ok o) := by
  refine ⟨?_, merge_eq_nil_of_disjoint _ _, ?_⟩
  · constructor
    · intro h
      unfold calculate_antenna_mse at h
      by_cases h1 : hasReqCols (stripCols dfInterp) = true
      · by_cases h2 : hasReqCols (stripCols dfOrig) = true
        · simp only [h1, h2, if_true] at h
          by_cases h3 :
              (merge (sRows (stripCols dfOrig)) (sRows (stripCols dfInterp))).isEmpty = true
          · exact ⟨h1, h2, List.isEmpty_iff.mp h3⟩
          · simp [h3] at h
        · simp [h1, h2] at h
      · simp [h1] at h
    · rintro ⟨h1, h2, h3⟩
      unfold calculate_antenna_mse
      simp [h1, h2, h3]
  · intro e he o hco
    rw [he] at hco
    exact Except.noConfusion hco

/-- Witness for C3: tables with disjoint key sets yield the empty-alignment
error. -/
theorem align_empty_alignment_error_iff_witness :
    calculate_antenna_mse tIntDisjoint tRefScenario = .error .emptyAlignment := by
  exact (align_empty_alignment_error_iff tIntDisjoint tRefScenario).1.mpr
    ⟨by rfl, by rfl, by decide⟩

/-- The validation check of line 109 passes exactly when every required
column name occurs (after trimming) among the table's column names. -/
theorem hasReqCols_iff (t : PyTable) :
    hasReqCols t = true ↔ ∀ c ∈ reqCols, c ∈ t.cols := by
  simp [hasReqCols, List.all_eq_true]

/-- C7 as written is false at `tMissingVal`: exactly one required field
("dB10normalize(GainTotal)") is missing, yet the reported list is the full
required list, not the list of missing fields. -/
theorem validate_reports_full_list_counterexample :
    calculate_antenna_mse tMissingVal tRefScenario =
      .error (.missingFields "Interpolated"
        ["Phi[deg]", "Theta[deg]", "dB10normalize(GainTotal)"]) ∧
    reqCols.filter (fun c => !decide (c ∈ (stripCols tMissingVal).cols)) =
      ["dB10normalize(GainTotal)"] ∧
    (["Phi[deg]", "Theta[deg]", "dB10normalize(GainTotal)"] : List String) ≠
      ["dB10normalize(GainTotal)"] := by
  exact ⟨by rfl, by rfl, by decide⟩

/-- C7 amended: field names are matched exactly after whitespace trimming,
and a table missing any required field aborts the run with an error carrying
that table's identity and the full required-field list (lines 108-112 print
`req_cols`, not the missing subset). -/
theorem validate_missing_fields_amended (dfInterp dfOrig : PyTable) :
    (hasReqCols (stripCols dfInterp) = true ↔
      ∀ c ∈ reqCols, c ∈ (stripCols dfInterp).cols) ∧
    (hasReqCols (stripCols dfInterp) = false →
      calculate_antenna_mse dfInterp dfOrig =
        .error (.missingFields "Interpolated" reqCols)) ∧
    (hasReqCols (stripCols dfInterp) = true →
      hasReqCols (stripCols dfOrig) = false →
      calculate_antenna_mse dfInterp dfOrig =
        .error (.missingFields "Original" reqCols)) := by
  refine ⟨hasReqCols_iff _, ?_, ?_⟩
  · intro h1
    unfold calculate_antenna_mse
    simp [h1]
  · intro h1 h2
    unfold calculate_antenna_mse
    simp [h1, h2]

/-- Witness for the amended C7: a table lacking the value column aborts with
the Interpolated identity and the full required list. -/
theorem validate_missing_fields_amended_witness :
    calculate_antenna_mse tMissingVal tIntScenario =
      .error (.missingFields "Interpolated" reqCols) := by
  exact (validate_missing_fields_amended tMissingVal tIntScenario).2.1 (by rfl)

/-- C8 as written is false: the comparison value field is not a caller
configuration option.  Tables carrying their value column under the
caller-chosen name "gain" are rejected with a missing-fields error for the
hardcoded name, although both tables are well-formed for that choice. -/
theorem value_field_not_configurable_counterexample :
    "gain" ∈ (stripCols tGainInterp).cols ∧
    "gain" ∈ (stripCols tGainRef).cols ∧
    targetCol ≠ "gain" ∧
    calculate_antenna_mse tGainInterp tGainRef =
      .error (.missingFields "Interpolated" reqCols) := by
  exact ⟨by decide, by decide, by decide, by rfl⟩

/-- C8 amended: the comparison value field name is the constant
`'dB10normalize(GainTotal)'` hardcoded at line 105 ("Change as needed,
hardcoded data column name"), not caller-supplied; every run that succeeds
has that exact column (after trimming) in both tables. -/
theorem value_field_hardcoded_amended :
    targetCol = "dB10normalize(GainTotal)" ∧
    (∀ dfInterp dfOrig : PyTable,
      isOk (calculate_antenna_mse dfInterp dfOrig) = true →
        targetCol ∈ (stripCols dfInterp).cols ∧
          targetCol ∈ (stripCols dfOrig).cols) := by
  refine ⟨rfl, fun dfInterp dfOrig h => ?_⟩
  unfold calculate_antenna_mse at h
  by_cases h1 : hasReqCols (stripCols dfInterp) = true
  · by_cases h2 : hasReqCols (stripCols dfOrig) = true
    · exact ⟨(hasReqCols_iff _).mp h1 targetCol (by simp [reqCols]),
        (hasReqCols_iff _).mp h2 targetCol (by simp [reqCols])⟩
    · simp [h1, h2, isOk] at h
  · simp [h1, isOk] at h

/-- Witness for the amended C8 at the successful one-row scenario run. -/
theorem value_field_hardcoded_amended_witness :
    targetCol ∈ (stripCols tIntScenario).cols ∧
      targetCol ∈ (stripCols tRefScenario).cols := by
  exact value_field_hardcoded_amended.2 tIntScenario tRefScenario (by rfl)

/-- C9 as written is false: the derived-column stage does not leave its
input table unchanged.  Lines 131-133 write the new columns through the
existing `merged` object, so the heap cell at its address changes. -/
theorem inplace_mutation_counterexample :
    assignDerivedInPlace heap0 0 0 ≠ heap0 0 := by
  simp [assignDerivedInPlace, heap0]

/-- C9 amended: every stage leaves all heap objects other than its target
untouched, but three stages mutate an existing object in place instead of
producing a fresh artifact: the column-strip stage (lines 102-103,
`df.columns = [c.strip() for c in df.columns]`) rewrites each of the two
parsed input tables in place, the derived-column stage (lines 131-133)
rewrites the aligned table in place, and the grid-sorting stage (lines
159-160, `inplace=True`) sorts the reconstruction grid in place. -/
theorem mutation_frame_amended :
    (∀ (h : Heap) (a i : Nat), i ≠ a → stripColsInPlace h a i = h i) ∧
    (∀ (h : Heap) (a i : Nat), i ≠ a → assignDerivedInPlace h a i = h i) ∧
    (∀ (h : Heap) (a i : Nat), i ≠ a → sortIndexInPlace h a i = h i) ∧
    (∀ (h : Heap) (a : Nat) (t : PyTable), h a = some (.table t) →
      stripColsInPlace h a a = some (.table (stripCols t))) ∧
    (∀ (h : Heap) (a : Nat) (l : List MRow), h a = some (.aligned l) →
      assignDerivedInPlace h a a = some (.alignedD (withDerived l))) ∧
    (∀ (h : Heap) (a : Nat) (g : PGrid), h a = some (.grid g) →
      sortIndexInPlace h a a = some (.grid (sortIndexBoth g))) := by
  refine ⟨?_, ?_, ?_, ?_, ?_, ?_⟩
  · intro h a i hi
    simp [stripColsInPlace, hi]
  · intro h a i hi
    simp [assignDerivedInPlace, hi]
  · intro h a i hi
    simp [sortIndexInPlace, hi]
  · intro h a t ht
    simp [stripColsInPlace, ht]
  · intro h a l hl
    simp [assignDerivedInPlace, hl]
  · intro h a g hg
    simp [sortIndexInPlace, hg]

/-- Witness for the amended C9 on the concrete heaps: the frame conditions
at off-target addresses and the three in-place rewrites, including the
column-strip of a whitespace-padded parsed table. -/
theorem mutation_frame_amended_witness :
    stripColsInPlace heapT 0 1 = heapT 1 ∧
    assignDerivedInPlace heap0 0 1 = heap0 1 ∧
    sortIndexInPlace heapG 3 0 = heapG 0 ∧
    stripColsInPlace heapT 0 0 = some (.table (stripCols tPadded)) ∧
    assignDerivedInPlace heap0 0 0 =
      some (.alignedD (withDerived [⟨0, 0, 10, 12⟩])) ∧
    sortIndexInPlace heapG 3 3 = some (.grid (sortIndexBoth gridDemo)) := by
  exact ⟨mutation_frame_amended.1 heapT 0 1 (by decide),
    mutation_frame_amended.2.1 heap0 0 1 (by decide),
    mutation_frame_amended.2.2.1 heapG 3 0 (by decide),
    mutation_frame_amended.2.2.2.1 heapT 0 tPadded (by rfl),
    mutation_frame_amended.2.2.2.2.1 heap0 0 _ (by rfl),
    mutation_frame_amended.2.2.2.2.2 heapG 3 gridDemo (by rfl)⟩

/-- The index-tagged selection is pairwise strict: strictly larger squared
error first, and among equal squared errors strictly earlier original
position first. -/
theorem nlargestIdx_pairwise (n : Nat) (l : List DRow) :
    (nlargestIdx n l).Pairwise (fun p q =>
      q.2.sqError < p.2.sqError ∨
        (p.2.sqError = q.2.sqError ∧ p.1 < q.1)) := by
  have hsort : (l.enum.insertionSort nlargestRel).Pairwise nlargestRel :=
    List.sorted_insertionSort nlargestRel l.enum
  have hperm : List.Perm (l.enum.insertionSort nlargestRel) l.enum :=
    List.perm_insertionSort nlargestRel l.enum
  have hnodup : ((l.enum.insertionSort nlargestRel).map Prod.fst).Nodup :=
    ((hperm.map Prod.fst).nodup_iff).mpr (List.nodup_enum_map_fst l)
  have hne : (l.enum.insertionSort nlargestRel).Pairwise
      (fun p q : Nat × DRow => p.1 ≠ q.1) :=
    List.pairwise_map.mp hnodup
  have hstrict : (l.enum.insertionSort nlargestRel).Pairwise (fun p q =>
      q.2.sqError < p.2.sqError ∨ (p.2.sqError = q.2.sqError ∧ p.1 < q.1)) :=
    (hsort.and hne).imp (fun hab => by
      rcases hab with ⟨h | ⟨heq, hle⟩, hidx⟩
      · exact Or.inl h
      · exact Or.inr ⟨heq, lt_of_le_of_ne hle hidx⟩)
  exact hstrict.sublist (List.take_sublist n _)

/-- C6: `nlargest n` (line 151 uses n = 5) returns min(n, len) rows; mapped
to squared errors they are in non-increasing order; each returned row is the
row of the aligned table at its carried original position; ties are broken
by ascending original position (stable selection); and the selection is a
sub-permutation of the index-tagged aligned table. -/
theorem top_errors_sorted_stable_length (n : Nat) (l : List DRow) :
    (nlargest n l).length = min n l.length ∧
    ((nlargest n l).map (fun r => r.sqError)).Sorted (fun a b => b ≤ a) ∧
    (∀ p ∈ nlargestIdx n l, l[p.1]? = some p.2) ∧
    (nlargestIdx n l).Pairwise (fun p q =>
      q.2.sqError < p.2.sqError ∨ (p.2.sqError = q.2.sqError ∧ p.1 < q.1)) ∧
    List.Subperm (nlargestIdx n l) l.enum ∧
    nlargest n l = (nlargestIdx n l).map Prod.snd := by
  refine ⟨?_, ?_, ?_, nlargestIdx_pairwise n l, ?_, rfl⟩
  · rw [nlargest, List.length_map, nlargestIdx, List.length_take,
      List.length_insertionSort, List.enum_length]
  · have hp := nlargestIdx_pairwise n l
    rw [nlargest, List.map_map]
    exact List.pairwise_map.mpr (hp.imp (fun hab => by
      rcases hab with h | h
      · exact le_of_lt h
      · exact le_of_eq h.1.symm))
  · intro p hp
    have h1 : p ∈ l.enum.insertionSort nlargestRel :=
      List.take_subset _ _ hp
    have h2 : p ∈ l.enum := (List.mem_insertionSort nlargestRel).mp h1
    exact List.mem_enum_iff_getElem?.mp h2
  · exact ((List.take_sublist _ _).subperm).trans
      (List.perm_insertionSort nlargestRel l.enum).subperm

/-- The axis labels produced by a pivot are sorted ascending. -/
theorem sortedVals_sorted (l : List ℚ) :
    (sortedVals l).Sorted (fun a b => a ≤ b) :=
  List.sorted_insertionSort _ _

/-- The axis labels produced by a pivot are duplicate-free. -/
theorem sortedVals_nodup (l : List ℚ) : (sortedVals l).Nodup :=
  ((List.perm_insertionSort _ _).nodup_iff).mpr (List.nodup_dedup l)

/-- The axis labels are exactly the values occurring in the column. -/
theorem sortedVals_mem (l : List ℚ) (x : ℚ) : x ∈ sortedVals l ↔ x ∈ l := by
  rw [sortedVals, List.mem_insertionSort, List.mem_dedup]

/-- The axis labels are strictly increasing. -/
theorem sortedVals_sorted_lt (l : List ℚ) : (sortedVals l).Sorted (· < ·) :=
  List.Sorted.lt_of_le (sortedVals_sorted l) (sortedVals_nodup l)

/-- The reconstruction grid's row labels after the in-place sorts of lines
159-160: the distinct Phi values of the merged frame, sorted ascending. -/
theorem gridInterp_rcs (l : List DRow) :
    (gridInterp l).rcs = sortedVals (l.map (fun r => r.phi)) :=
  List.Sorted.insertionSort_eq (sortedVals_sorted _)

/-- The reconstruction grid's column labels: the distinct Theta values of
the merged frame, sorted ascending. -/
theorem gridInterp_ccs (l : List DRow) :
    (gridInterp l).ccs = sortedVals (l.map (fun r => r.theta)) :=
  List.Sorted.insertionSort_eq (sortedVals_sorted _)

/-- C1: after the pivot/reindex step the three grids carry identical row and
column label sequences (hence identical shape and coordinate-to-index
mapping); the labels are the reconstruction grid's distinct coordinate
values in strictly ascending order; and every coordinate pair present in an
aligned row maps to a non-sentinel cell of the reconstruction grid. -/
theorem to_grids_shape_and_mapping (l : List DRow) (hne : l ≠ []) :
    ((gridOrig l).rcs = (gridInterp l).rcs ∧
      (gridOrig l).ccs = (gridInterp l).ccs ∧
      (gridError l).rcs = (gridInterp l).rcs ∧
      (gridError l).ccs = (gridInterp l).ccs) ∧
    ((gridValues (gridInterp l)).length = (gridInterp l).rcs.length ∧
      (gridValues (gridOrig l)).length = (gridInterp l).rcs.length ∧
      (gridValues (gridError l)).length = (gridInterp l).rcs.length ∧
      (∀ row ∈ gridValues (gridInterp l), row.length = (gridInterp l).ccs.length) ∧
      (∀ row ∈ gridValues (gridOrig l), row.length = (gridInterp l).ccs.length) ∧
      (∀ row ∈ gridValues (gridError l), row.length = (gridInterp l).ccs.length)) ∧
    ((gridInterp l).rcs.Sorted (· < ·) ∧ (gridInterp l).ccs.Sorted (· < ·) ∧
      (∀ x, x ∈ (gridInterp l).rcs ↔ x ∈ l.map (fun r => r.phi)) ∧
      (∀ x, x ∈ (gridInterp l).ccs ↔ x ∈ l.map (fun r => r.theta))) ∧
    (∀ r ∈ l, r.phi ∈ (gridInterp l).rcs ∧ r.theta ∈ (gridInterp l).ccs ∧
      (gridInterp l).cell r.phi r.theta ≠ none) := by
  refine ⟨⟨rfl, rfl, rfl, rfl⟩, ⟨?_, ?_, ?_, ?_, ?_, ?_⟩, ⟨?_, ?_, ?_, ?_⟩, ?_⟩
  · simp [gridValues]
  · simp [gridValues, gridOrig, reindexLike]
  · simp [gridValues, gridError, reindexLike]
  · intro row hrow
    simp only [gridValues, List.mem_map] at hrow
    obtain ⟨a, -, rfl⟩ := hrow
    simp
  · intro row hrow
    simp only [gridValues, List.mem_map] at hrow
    obtain ⟨a, -, rfl⟩ := hrow
    simp [gridOrig, reindexLike]
  · intro row hrow
    simp only [gridValues, List.mem_map] at hrow
    obtain ⟨a, -, rfl⟩ := hrow
    simp [gridError, reindexLike]
  · exact gridInterp_rcs l ▸ sortedVals_sorted_lt _
  · exact gridInterp_ccs l ▸ sortedVals_sorted_lt _
  · intro x
    rw [gridInterp_rcs]
    exact sortedVals_mem _ x
  · intro x
    rw [gridInterp_ccs]
    exact sortedVals_mem _ x
  · intro r hr
    refine ⟨?_, ?_, ?_⟩
    · rw [gridInterp_rcs]
      exact (sortedVals_mem _ _).mpr (List.mem_map_of_mem _ hr)
    · rw [gridInterp_ccs]
      exact (sortedVals_mem _ _).mpr (List.mem_map_of_mem _ hr)
    · have hfind : (l.find? (fun x => decide (x.phi = r.phi ∧ x.theta = r.theta))).isSome :=
        List.find?_isSome.mpr ⟨r, hr, by simp⟩
      obtain ⟨v, hv⟩ := Option.isSome_iff_exists.mp hfind
      show pivotCell l (fun x => x.vInterp) r.phi r.theta ≠ none
      rw [pivotCell, hv]
      simp

/-- Witness for C1 at the one-row aligned table. -/
theorem to_grids_shape_and_mapping_witness :
    lDemo ≠ [] ∧ (gridInterp lDemo).rcs.Sorted (· < ·) := by
  exact ⟨by decide, (to_grids_shape_and_mapping lDemo (by decide)).2.2.1.1⟩

/-- C10: at every labelled cell of the shared axes, the reference grid and
the error grid hold the NaN sentinel exactly where the reconstruction grid
does — all three grids are pivoted from the same aligned table, and the
reindexing of lines 162-163 only relabels onto the reconstruction grid's
(sorted-in-place) axes. -/
theorem grids_same_sentinel_cells (l : List DRow) (a b : ℚ)
    (ha : a ∈ (gridInterp l).rcs) (hb : b ∈ (gridInterp l).ccs) :
    ((gridOrig l).cell a b = none ↔ (gridInterp l).cell a b = none) ∧
    ((gridError l).cell a b = none ↔ (gridInterp l).cell a b = none) := by
  have ha2 : a ∈ sortedVals (l.map (fun r => r.phi)) := by
    rwa [gridInterp_rcs] at ha
  have hb2 : b ∈ sortedVals (l.map (fun r => r.theta)) := by
    rwa [gridInterp_ccs] at hb
  have key : ∀ f g : DRow → ℚ,
      (pivotCell l f a b = none ↔ pivotCell l g a b = none) := by
    intro f g
    unfold pivotCell
    cases hfind : l.find? (fun r => decide (r.phi = a ∧ r.theta = b)) <;>
      simp [hfind]
  constructor
  · show (if a ∈ (pivot l (fun r => r.vOrig)).rcs ∧
        b ∈ (pivot l (fun r => r.vOrig)).ccs
        then pivotCell l (fun r => r.vOrig) a b else none) = none ↔
      (gridInterp l).cell a b = none
    rw [if_pos ⟨ha2, hb2⟩]
    exact key _ _
  · show (if a ∈ (pivot l (fun r => r.absError)).rcs ∧
        b ∈ (pivot l (fun r => r.absError)).ccs
        then pivotCell l (fun r => r.absError) a b else none) = none ↔
      (gridInterp l).cell a b = none
    rw [if_pos ⟨ha2, hb2⟩]
    exact key _ _

/-- Witness for C10 at the one-row aligned table and its only label pair. -/
theorem grids_same_sentinel_cells_witness :
    ((gridOrig lDemo).cell 0 0 = none ↔ (gridInterp lDemo).cell 0 0 = none) ∧
    ((gridError lDemo).cell 0 0 = none ↔ (gridInterp lDemo).cell 0 0 = none) := by
  exact grids_same_sentinel_cells lDemo 0 0 (by decide) (by decide)

end Antenna3DError

